import Mathlib

/-!
Verification of the log-event normalization core (`lib/event.go` of the
`cwlogs` repository) against its natural-language specification.

The embedding models, in order:
  * JSON values and a JSON text parser (modelling `encoding/json` syntax
    checking and decoding of `map[string]json.RawMessage`);
  * the severity `Level` type of the external `ecs-logs-go` dependency;
  * Go `time.Time` as an absolute nanosecond count since January 1, year 1
    (so that the zero `time.Time` is `0`, distinct from the Unix epoch), with
    `time.Unix` and RFC3339 parsing (`time.Time.UnmarshalJSON`);
  * `SlogEvent.UnmarshalJSON`, `NewEvent`, `ParseAWSTimestamp`,
    `Event.TaskShort` and the `ByCreationTime` comparator, translated from
    `lib/event.go`.
-/

set_option autoImplicit false

namespace CwLogs

/-- A JSON value.  Numbers keep their literal source text (this is exactly the
information `json.Number` retains); strings are stored decoded.  Each object
member carries, besides its key and parsed value, the verbatim source text of
the value — the bytes a `json.RawMessage` for that member holds. -/
inductive Json where
  | null : Json
  | bool : Bool → Json
  | num : String → Json
  | str : String → Json
  | arr : List Json → Json
  | obj : List (String × String × Json) → Json
deriving Repr

/-- JSON whitespace as in RFC 8259 (and Go's scanner). -/
def isWs (c : Char) : Bool :=
  c == ' ' || c == '\t' || c == '\n' || c == '\r'

def skipWs : List Char → List Char
  | [] => []
  | c :: cs => if isWs c then skipWs cs else c :: cs

def hexVal (c : Char) : Option Nat :=
  if '0' ≤ c && c ≤ '9' then some (c.toNat - 48)
  else if 'a' ≤ c && c ≤ 'f' then some (c.toNat - 87)
  else if 'A' ≤ c && c ≤ 'F' then some (c.toNat - 55)
  else none

/-- Decode the body of a JSON string (after the opening quote), processing
escapes; a lone surrogate becomes U+FFFD as in Go's `unquote`. -/
def parseStrAux : Nat → List Char → List Char → Option (String × List Char)
  | 0, _, _ => none
  | fuel + 1, acc, cs =>
    match cs with
    | [] => none
    | '"' :: rest => some (String.mk acc.reverse, rest)
    | '\\' :: e :: rest =>
      match e with
      | '"' => parseStrAux fuel ('"' :: acc) rest
      | '\\' => parseStrAux fuel ('\\' :: acc) rest
      | '/' => parseStrAux fuel ('/' :: acc) rest
      | 'b' => parseStrAux fuel ('\x08' :: acc) rest
      | 'f' => parseStrAux fuel ('\x0c' :: acc) rest
      | 'n' => parseStrAux fuel ('\n' :: acc) rest
      | 'r' => parseStrAux fuel ('\r' :: acc) rest
      | 't' => parseStrAux fuel ('\t' :: acc) rest
      | 'u' =>
        match rest with
        | h1 :: h2 :: h3 :: h4 :: rest' =>
          match hexVal h1, hexVal h2, hexVal h3, hexVal h4 with
          | some a, some b, some c, some d =>
            let code := ((a * 16 + b) * 16 + c) * 16 + d
            let ch := if 0xD800 ≤ code && code < 0xE000 then Char.ofNat 0xFFFD else Char.ofNat code
            parseStrAux fuel (ch :: acc) rest'
          | _, _, _, _ => none
        | _ => none
      | _ => none
    | c :: rest =>
      if c.toNat < 0x20 then none else parseStrAux fuel (c :: acc) rest

/-- Parse a JSON number literal, returning its exact source text
(the text `json.Number` stores). -/
def parseNumber (cs : List Char) : Option (String × List Char) :=
  let signed : Bool × List Char :=
    match cs with
    | '-' :: r => (true, r)
    | _ => (false, cs)
  match signed.2 with
  | [] => none
  | c :: r =>
    if !c.isDigit then none
    else
      let intRest : Option (List Char × List Char) :=
        if c == '0' then some ([c], r)
        else some (c :: r.takeWhile Char.isDigit, r.dropWhile Char.isDigit)
      match intRest with
      | none => none
      | some (intPart, r1) =>
        let fracRes : Option (List Char × List Char) :=
          match r1 with
          | '.' :: r2 =>
            let ds := r2.takeWhile Char.isDigit
            if ds.isEmpty then none else some ('.' :: ds, r2.dropWhile Char.isDigit)
          | _ => some ([], r1)
        match fracRes with
        | none => none
        | some (fracPart, r2) =>
          let expRes : Option (List Char × List Char) :=
            match r2 with
            | e :: r3 =>
              if e == 'e' || e == 'E' then
                let signAndRest : List Char × List Char :=
                  match r3 with
                  | s :: r4 => if s == '+' || s == '-' then ([s], r4) else ([], r3)
                  | [] => ([], r3)
                let ds := signAndRest.2.takeWhile Char.isDigit
                if ds.isEmpty then none
                else some (e :: signAndRest.1 ++ ds, signAndRest.2.dropWhile Char.isDigit)
              else some ([], r2)
            | [] => some ([], r2)
          match expRes with
          | none => none
          | some (expPart, r3) =>
            let lit := (if signed.1 then "-" else "") ++ String.mk (intPart ++ fracPart ++ expPart)
            some (lit, r3)

mutual

/-- Parse one JSON value at the head of the input (no leading whitespace). -/
def parseVal : Nat → List Char → Option (Json × List Char)
  | 0, _ => none
  | fuel + 1, cs =>
    match cs with
    | [] => none
    | '"' :: rest =>
      match parseStrAux (fuel + 1) [] rest with
      | some (s, r) => some (Json.str s, r)
      | none => none
    | '{' :: rest =>
      match skipWs rest with
      | '}' :: r2 => some (Json.obj [], r2)
      | r2 =>
        match parseObjTail fuel r2 with
        | some (kvs, r) => some (Json.obj kvs, r)
        | none => none
    | '[' :: rest =>
      match skipWs rest with
      | ']' :: r2 => some (Json.arr [], r2)
      | r2 =>
        match parseArrTail fuel r2 with
        | some (js, r) => some (Json.arr js, r)
        | none => none
    | 't' :: 'r' :: 'u' :: 'e' :: rest => some (Json.bool true, rest)
    | 'f' :: 'a' :: 'l' :: 's' :: 'e' :: rest => some (Json.bool false, rest)
    | 'n' :: 'u' :: 'l' :: 'l' :: rest => some (Json.null, rest)
    | c :: _ =>
      if c == '-' || c.isDigit then
        match parseNumber cs with
        | some (lit, r) => some (Json.num lit, r)
        | none => none
      else none

/-- Parse the members of a non-empty JSON array, consuming the closing `]`. -/
def parseArrTail : Nat → List Char → Option (List Json × List Char)
  | 0, _ => none
  | fuel + 1, cs =>
    match parseVal fuel cs with
    | none => none
    | some (j, rest) =>
      match skipWs rest with
      | ',' :: r2 =>
        match parseArrTail fuel (skipWs r2) with
        | some (js, r3) => some (j :: js, r3)
        | none => none
      | ']' :: r2 => some ([j], r2)
      | _ => none

/-- Parse the members of a non-empty JSON object, consuming the closing
brace.  Each member records the verbatim source text of its value — the
slice from the value's first byte to its last, exactly the bytes Go's
decoder stores in a `json.RawMessage` for that member. -/
def parseObjTail : Nat → List Char → Option (List (String × String × Json) × List Char)
  | 0, _ => none
  | fuel + 1, cs =>
    match cs with
    | '"' :: rest =>
      match parseStrAux (fuel + 1) [] rest with
      | none => none
      | some (key, r1) =>
        match skipWs r1 with
        | ':' :: r2 =>
          match parseVal fuel (skipWs r2) with
          | none => none
          | some (v, r3) =>
            let raw := String.mk ((skipWs r2).take ((skipWs r2).length - r3.length))
            match skipWs r3 with
            | ',' :: r4 =>
              match parseObjTail fuel (skipWs r4) with
              | some (kvs, r5) => some ((key, raw, v) :: kvs, r5)
              | none => none
            | '}' :: r4 => some ([(key, raw, v)], r4)
            | _ => none
        | _ => none
    | _ => none

end

/-- `json.Unmarshal` syntax checking and top-level value decoding: the whole
input must be one JSON value surrounded only by whitespace. -/
def parseJson (s : String) : Option Json :=
  let cs := skipWs s.toList
  match parseVal (s.length * 4 + 16) cs with
  | some (j, rest) => if (skipWs rest).isEmpty then some j else none
  | none => none

/-!  ### The severity type of the external `ecs-logs-go` dependency.

Modelled from the spec: the `ecslogs.Level` type lives in the external
`github.com/segmentio/ecs-logs-go` module, not under `src/`.  The spec
describes it as a closed severity enumeration parsed from text with an
explicit default; its Go declaration is an `int`-backed enum whose zero
value is the unset severity `NONE`, its JSON decoder accepts a severity
name string and fails on anything else. -/

inductive Level where
  | NONE | EMERG | ALERT | CRIT | ERROR | WARN | NOTICE | INFO | DEBUG
deriving Repr, DecidableEq

/-- Modelled from the spec: `ecslogs.ParseLevel`, the case-insensitive
string-to-enum mapping (a switch over the severity names); unknown names
are a parse error. -/
def parseLevelName (s : String) : Option Level :=
  match s with
  | "EMERG" | "emerg" => some Level.EMERG
  | "ALERT" | "alert" => some Level.ALERT
  | "CRIT" | "crit" => some Level.CRIT
  | "ERROR" | "error" => some Level.ERROR
  | "WARN" | "warn" => some Level.WARN
  | "NOTICE" | "notice" => some Level.NOTICE
  | "INFO" | "info" => some Level.INFO
  | "DEBUG" | "debug" => some Level.DEBUG
  | _ => none

/-- Modelled from the spec: `ecslogs.Level.UnmarshalJSON` decodes a JSON
string severity name; a non-string value or an unknown name is an error
(a JSON null leaves the inner string empty, which is not a severity name). -/
def levelDecode (v : Json) : Option Level :=
  match v with
  | Json.str s => parseLevelName s
  | _ => none

/-!  ### Go `time.Time`.

A `time.Time` is modelled by its absolute nanosecond count since
January 1 of year 1, 00:00:00 UTC.  The zero `time.Time` (what `IsZero`
reports) is `0`; the Unix epoch `time.Unix(0, 0)` is `unixToInternalNs`. -/

abbrev GoTime := Int

/-- Seconds between January 1 year 1 and the Unix epoch (Go's
`unixToInternal`). -/
def unixToInternalSec : Int := 62135596800

/-- `time.Unix(sec, nsec)`: the instant `sec` seconds and `nsec`
nanoseconds after the Unix epoch. -/
def timeUnix (sec nsec : Int) : GoTime :=
  (sec + unixToInternalSec) * 1000000000 + nsec

/-- `time.Time.IsZero`. -/
def timeIsZero (t : GoTime) : Bool := t == 0

/-- `time.Time.Before`. -/
def timeBefore (a b : GoTime) : Bool := a < b

def isLeapYear (y : Int) : Bool :=
  y % 4 == 0 && (y % 100 != 0 || y % 400 == 0)

/-- Days in the months preceding month `m` of a non-leap year. -/
def daysBeforeMonth (m : Nat) : Int :=
  match m with
  | 1 => 0
  | 2 => 31
  | 3 => 59
  | 4 => 90
  | 5 => 120
  | 6 => 151
  | 7 => 181
  | 8 => 212
  | 9 => 243
  | 10 => 273
  | 11 => 304
  | _ => 334

def daysInMonth (y : Int) (m : Nat) : Nat :=
  match m with
  | 1 => 31
  | 2 => if isLeapYear y then 29 else 28
  | 3 => 31
  | 4 => 30
  | 5 => 31
  | 6 => 30
  | 7 => 31
  | 8 => 31
  | 9 => 30
  | 10 => 31
  | 11 => 30
  | _ => 31

/-- Days from January 1 of year 1 to the given proleptic-Gregorian date. -/
def daysSinceYearOne (y : Int) (m d : Nat) : Int :=
  let yp := y - 1
  yp * 365 + yp / 4 - yp / 100 + yp / 400
    + daysBeforeMonth m
    + (if m > 2 && isLeapYear y then 1 else 0)
    + (d - 1 : Int)

def digitsToNat : List Char → Nat
  | [] => 0
  | c :: cs => digitsToNat cs + (c.toNat - 48) * 10 ^ cs.length

def allDigits (cs : List Char) : Bool := cs.all Char.isDigit

/-- Read exactly `n` decimal digits. -/
def takeDigits (n : Nat) (cs : List Char) : Option (Nat × List Char) :=
  let ds := cs.take n
  if ds.length == n && allDigits ds then some (digitsToNat ds, cs.drop n) else none

/-- Parse the fractional-second part if present: `.` followed by one or more
digits; Go keeps at most nanosecond precision. -/
def parseFrac (cs : List Char) : Option (Int × List Char) :=
  match cs with
  | '.' :: r =>
    let ds := r.takeWhile Char.isDigit
    if ds.isEmpty then none
    else
      let ns := digitsToNat (ds.take 9) * 10 ^ (9 - min 9 ds.length)
      some ((ns : Int), r.dropWhile Char.isDigit)
  | _ => some (0, cs)

/-- Parse the RFC3339 offset: `Z` or `±hh:mm`; result in seconds east of UTC. -/
def parseOffset (cs : List Char) : Option (Int × List Char) :=
  match cs with
  | 'Z' :: r => some (0, r)
  | c :: r =>
    if c == '+' || c == '-' then
      match takeDigits 2 r with
      | some (oh, r1) =>
        match r1 with
        | ':' :: r2 =>
          match takeDigits 2 r2 with
          | some (om, r3) =>
            if oh ≤ 23 && om ≤ 59 then
              let secs : Int := (oh : Int) * 3600 + (om : Int) * 60
              some (if c == '-' then -secs else secs, r3)
            else none
          | none => none
        | _ => none
      | none => none
    else none
  | [] => none

/-- `time.Parse` with the RFC3339 layout, as used by
`time.Time.UnmarshalJSON`: `YYYY-MM-DDThh:mm:ss[.frac](Z|±hh:mm)`,
with field range validation. -/
def parseRFC3339 (s : String) : Option GoTime :=
  match takeDigits 4 s.toList with
  | none => none
  | some (y, r1) =>
    match r1 with
    | '-' :: r2 =>
      match takeDigits 2 r2 with
      | none => none
      | some (mo, r3) =>
        match r3 with
        | '-' :: r4 =>
          match takeDigits 2 r4 with
          | none => none
          | some (d, r5) =>
            match r5 with
            | 'T' :: r6 =>
              match takeDigits 2 r6 with
              | none => none
              | some (h, r7) =>
                match r7 with
                | ':' :: r8 =>
                  match takeDigits 2 r8 with
                  | none => none
                  | some (mi, r9) =>
                    match r9 with
                    | ':' :: r10 =>
                      match takeDigits 2 r10 with
                      | none => none
                      | some (sec, r11) =>
                        match parseFrac r11 with
                        | none => none
                        | some (ns, r12) =>
                          match parseOffset r12 with
                          | none => none
                          | some (off, r13) =>
                            if r13.isEmpty && 1 ≤ mo && mo ≤ 12 && 1 ≤ d
                                && d ≤ daysInMonth (y : Int) mo && h ≤ 23
                                && mi ≤ 59 && sec ≤ 59 then
                              let days := daysSinceYearOne (y : Int) mo d
                              let secs := days * 86400 + (h : Int) * 3600
                                + (mi : Int) * 60 + (sec : Int) - off
                              some (secs * 1000000000 + ns)
                            else none
                    | _ => none
                | _ => none
            | _ => none
        | _ => none
    | _ => none

/-- `time.Time.UnmarshalJSON`: a JSON null is a no-op (the field keeps its
zero value), a JSON string is parsed as RFC3339, anything else errors. -/
def timeDecode (v : Json) : Option GoTime :=
  match v with
  | Json.null => some 0
  | Json.str s => parseRFC3339 s
  | _ => none

/-!  ### The `SlogEvent` decoder (`SlogEvent.UnmarshalJSON` in `lib/event.go`). -/

structure SourceInfo where
  function : String := ""
  file : String := ""
  line : Int := 0
deriving Repr, DecidableEq

structure SlogEvent where
  level : Level := Level.NONE
  time : GoTime := 0
  source : SourceInfo := {}
  message : String := ""
  data : List (String × String) := []
deriving Repr, DecidableEq

/-- Overwrite-or-append used to build the Go map `raw` from the object's
members in textual order: a duplicate key keeps the last value.  Each map
value is the member's verbatim source text (the `json.RawMessage` bytes)
together with its parsed form. -/
def rawInsert (m : List (String × String × Json)) (k : String)
    (v : String × Json) : List (String × String × Json) :=
  if m.any (fun p => p.1 == k) then
    m.map (fun p => if p.1 == k then (k, v) else p)
  else m ++ [(k, v)]

def toRawMap (kvs : List (String × String × Json)) : List (String × String × Json) :=
  kvs.foldl (fun m kv => rawInsert m kv.1 kv.2) []

/-- `json.Unmarshal(data, &raw)` with `raw : map[string]json.RawMessage`:
succeeds on a JSON object (building the map) and on JSON null (leaving the
map nil, i.e. empty); every other JSON value is a type error. -/
def unmarshalRawMap (j : Json) : Option (List (String × String × Json)) :=
  match j with
  | Json.obj kvs => some (toRawMap kvs)
  | Json.null => some []
  | _ => none

/-- `json.Unmarshal(value, &str)` with `str : string`: a JSON string decodes,
a JSON null is a no-op leaving the fresh string empty, all else errors. -/
def goStringDecode (v : Json) : Option String :=
  match v with
  | Json.str s => some s
  | Json.null => some ""
  | _ => none

/-- `json.Unmarshal(value, &num)` with `num : json.Number`: a JSON number
literal is kept as its text, a JSON null is a no-op, all else errors. -/
def goNumberDecode (v : Json) : Option String :=
  match v with
  | Json.num lit => some lit
  | Json.null => some ""
  | _ => none

/-- `math.MinInt64`, the lower bound of Go's 64-bit `int`. -/
def int64Min : Int := -9223372036854775808

/-- `math.MaxInt64`, the upper bound of Go's 64-bit `int`. -/
def int64Max : Int := 9223372036854775807

/-- `strconv.ParseInt(lit, 10, 0)` on a number literal: an optional sign
followed by decimal digits only (so a fraction or exponent is an error). -/
def parseIntLit (s : String) : Option Int :=
  match s.toList with
  | [] => none
  | '-' :: ds =>
    if !ds.isEmpty && ds.all Char.isDigit then some (-(digitsToNat ds : Int)) else none
  | '+' :: ds =>
    if !ds.isEmpty && ds.all Char.isDigit then some ((digitsToNat ds : Int)) else none
  | ds =>
    if !ds.isEmpty && ds.all Char.isDigit then some ((digitsToNat ds : Int)) else none

/-- `json.Unmarshal(value, &n)` with `n : int`: only an integral JSON number
literal decodes, via `strconv.ParseInt` on the literal text, which also
rejects values outside the 64-bit `int` range; a JSON null is a no-op on the
fresh zero value. -/
def goIntDecode (v : Json) : Option Int :=
  match v with
  | Json.num lit =>
    match parseIntLit lit with
    | some n => if int64Min ≤ n && n ≤ int64Max then some n else none
    | none => none
  | Json.null => some 0
  | _ => none

/-- `strings.EqualFold` on the ASCII names involved here: encoding/json
matches a JSON key to a struct field case-insensitively when no exact match
exists. -/
def strEqFold (a b : String) : Bool :=
  a.toList.map Char.toLower == b.toList.map Char.toLower

/-- Decode the members of the `source` object into the `SourceInfo` struct in
textual order, as encoding/json streams them: a key matching a field name
(case-insensitively) assigns that field — null values are no-ops, a mistyped
value is an error, later duplicates overwrite — and unknown keys are
ignored. -/
def sourceDecodeFields : List (String × String × Json) → SourceInfo → Option SourceInfo
  | [], acc => some acc
  | (_, _, Json.null) :: rest, acc => sourceDecodeFields rest acc
  | (k, _, v) :: rest, acc =>
    if strEqFold k "function" then
      match goStringDecode v with
      | some s => sourceDecodeFields rest { acc with function := s }
      | none => none
    else if strEqFold k "file" then
      match goStringDecode v with
      | some s => sourceDecodeFields rest { acc with file := s }
      | none => none
    else if strEqFold k "line" then
      match goIntDecode v with
      | some n => sourceDecodeFields rest { acc with line := n }
      | none => none
    else sourceDecodeFields rest acc

/-- `json.Unmarshal(sourceData, &s.Source)`: decodes a JSON object into the
`SourceInfo` struct; null is a no-op; all else errors. -/
def sourceDecode (v : Json) : Option SourceInfo :=
  match v with
  | Json.null => some {}
  | Json.obj kvs => sourceDecodeFields kvs {}
  | _ => none

/-- `json.Unmarshal(msgData, &s.Message)`. -/
def msgDecode (v : Json) : Option String := goStringDecode v

/-- The four keys of the fixed schema (`staticFields` in the source). -/
def isReserved (k : String) : Bool :=
  k == "level" || k == "time" || k == "source" || k == "msg"

/-- The string stored for one non-reserved payload value: try decoding the
value into a Go string, then into a `json.Number`, else keep the verbatim
raw text of the member (`string(value)` on the `json.RawMessage`). -/
def payloadValue (raw : String) (v : Json) : String :=
  match goStringDecode v with
  | some s => s
  | none =>
    match goNumberDecode v with
    | some n => n
    | none => raw

/-- Decode one reserved field: absent keeps the zero value, present must
decode or the whole unmarshal errors. -/
def decodeField {α : Type} (raw : List (String × String × Json)) (key : String)
    (dec : Json → Option α) (dflt : α) : Option α :=
  match raw.lookup key with
  | none => some dflt
  | some v => dec v.2

/-- The payload map built by the final loop of `SlogEvent.UnmarshalJSON`:
every non-reserved entry of `raw`, its value pushed through the
string → number → raw-text chain. -/
def payloadOf (raw : List (String × String × Json)) : List (String × String) :=
  raw.filterMap (fun kv =>
    if isReserved kv.1 then none else some (kv.1, payloadValue kv.2.1 kv.2.2))

/-- `SlogEvent.UnmarshalJSON` (`lib/event.go` lines 47–102), applied to the
already syntax-checked JSON value.  Each reserved field is decoded in turn
with an early error return, then the remaining keys become the payload. -/
def slogUnmarshal (j : Json) : Option SlogEvent :=
  (unmarshalRawMap j).bind fun raw =>
  (decodeField raw "level" levelDecode Level.NONE).bind fun lvl =>
  (decodeField raw "time" timeDecode 0).bind fun t =>
  (decodeField raw "source" sourceDecode {}).bind fun src =>
  (decodeField raw "msg" msgDecode "").bind fun m =>
  some { level := lvl, time := t, source := src, message := m,
         data := payloadOf raw }

/-- The fallback record built in `NewEvent` when `json.Unmarshal` fails:
`SlogEvent{Level: ecslogs.INFO, Message: *cwEvent.Message}`. -/
def fallbackSlog (raw : String) : SlogEvent :=
  { level := Level.INFO, message := raw }

/-- The parse of the raw message text performed inside `NewEvent`:
`json.Unmarshal([]byte(*cwEvent.Message), &ecsLogsEvent)` with the fallback
on error. -/
def parseSlog (raw : String) : SlogEvent :=
  match parseJson raw with
  | none => fallbackSlog raw
  | some j =>
    match slogUnmarshal j with
    | none => fallbackSlog raw
    | some ev => ev

/-!  ### Event construction and views. -/

/-- `cloudwatchlogs.FilteredLogEvent`: every field is a pointer in the AWS
SDK, so each is modelled as optional. -/
structure FilteredLogEvent where
  message : Option String := none
  logStreamName : Option String := none
  eventId : Option String := none
  ingestionTime : Option Int := none
  timestamp : Option Int := none

structure Event where
  slog : SlogEvent
  stream : String
  group : String
  id : String
  ingestTime : GoTime
  creationTime : GoTime
deriving Repr, DecidableEq

/-- `ParseAWSTimestamp` (`lib/event.go` lines 131–136): nil maps to
`time.Unix(0, 0)`; otherwise milliseconds are split into seconds and a
nanosecond remainder with Go's truncated division. -/
def ParseAWSTimestamp (i : Option Int) : GoTime :=
  match i with
  | none => timeUnix 0 0
  | some ms => timeUnix (ms.tdiv 1000) (ms.tmod 1000 * 1000000)

/-- `NewEvent` (`lib/event.go` lines 105–128).  The result is `none` exactly
when the Go code dereferences a nil pointer (`*cwEvent.Message`,
`*cwEvent.LogStreamName`, `*cwEvent.EventId`), which panics. -/
def NewEvent (cwEvent : FilteredLogEvent) (group : String) : Option Event :=
  match cwEvent.message with
  | none => none
  | some msg =>
    let ecsLogsEvent := parseSlog msg
    let ecsLogsEvent :=
      if timeIsZero ecsLogsEvent.time then
        { ecsLogsEvent with time := ParseAWSTimestamp cwEvent.timestamp }
      else ecsLogsEvent
    match cwEvent.logStreamName with
    | none => none
    | some stream =>
      match cwEvent.eventId with
      | none => none
      | some id =>
        some { slog := ecsLogsEvent
               stream := stream
               group := group
               id := id
               ingestTime := ParseAWSTimestamp cwEvent.ingestionTime
               creationTime := ParseAWSTimestamp cwEvent.timestamp }

/-- `strings.Split(s, "-")`: split at every hyphen (Go never returns an
empty slice for a non-empty separator). -/
def splitOnDash : List Char → List (List Char)
  | [] => [[]]
  | '-' :: rest => [] :: splitOnDash rest
  | c :: rest =>
    match splitOnDash rest with
    | p :: ps => (c :: p) :: ps
    | [] => [[c]]

/-- `TaskUUIDPattern` membership: the anchored regular expression
`[[:alnum:]]{8}-[[:alnum:]]{4}-[[:alnum:]]{4}-[[:alnum:]]{4}-[[:alnum:]]{12}`
(POSIX `alnum` is ASCII letters and digits in Go's regexp). -/
def taskUUIDMatch (s : String) : Bool :=
  match splitOnDash s.toList with
  | [a, b, c, d, e] =>
    a.length == 8 && b.length == 4 && c.length == 4 && d.length == 4
      && e.length == 12 && (a ++ b ++ c ++ d ++ e).all Char.isAlphanum
  | _ => false

/-- `Event.TaskShort` (`lib/event.go` lines 140–146): the first
hyphen-delimited segment when the stream matches `TaskUUIDPattern`, the
stream unchanged otherwise. -/
def Event.TaskShort (e : Event) : String :=
  if taskUUIDMatch e.stream then String.mk ((splitOnDash e.stream.toList).headD [])
  else e.stream

/-- `ByCreationTime.Less` (`lib/event.go` line 170). -/
def byCreationTimeLess (a b : Event) : Bool :=
  timeBefore a.creationTime b.creationTime

/-- The non-strict comparison induced by `byCreationTimeLess`, as used by a
comparator-based sort: `a` may precede `b` when `Less b a` is false. -/
def byCreationTimeLE (a b : Event) : Bool :=
  !byCreationTimeLess b a

/-- The claim's reading of `TaskUUIDPattern` with strictly hexadecimal
groups; stated from the spec sentence, for comparison with the
alphanumeric pattern actually used by the code. -/
def specHexUUIDPattern (s : String) : Bool :=
  match splitOnDash s.toList with
  | [a, b, c, d, e] =>
    a.length == 8 && b.length == 4 && c.length == 4 && d.length == 4
      && e.length == 12
      && (a ++ b ++ c ++ d ++ e).all (fun c =>
            c.isDigit || ('a' ≤ c && c ≤ 'f') || ('A' ≤ c && c ≤ 'F'))
  | _ => false

/-- Shorthand for an `Event` with an empty embedded record, used to state
concrete instances about the views and the ordering. -/
def mkEvent (stream group id : String) (ct : GoTime) : Event :=
  { slog := {}, stream := stream, group := group, id := id,
    ingestTime := 0, creationTime := ct }

/-!  ### Helper lemmas. -/

theorem parseSlog_of_parse_none {s : String} (h : parseJson s = none) :
    parseSlog s = fallbackSlog s := by
  simp [parseSlog, h]

theorem parseSlog_of_unmarshal_none {s : String} {j : Json}
    (hp : parseJson s = some j) (hu : slogUnmarshal j = none) :
    parseSlog s = fallbackSlog s := by
  simp [parseSlog, hp, hu]

theorem parseSlog_of_unmarshal_some {s : String} {j : Json} {ev : SlogEvent}
    (hp : parseJson s = some j) (hu : slogUnmarshal j = some ev) :
    parseSlog s = ev := by
  simp [parseSlog, hp, hu]

theorem slogUnmarshal_some_elim {j : Json} {ev : SlogEvent}
    (h : slogUnmarshal j = some ev) :
    ∃ raw lvl t src m, unmarshalRawMap j = some raw
      ∧ decodeField raw "level" levelDecode Level.NONE = some lvl
      ∧ decodeField raw "time" timeDecode 0 = some t
      ∧ decodeField raw "source" sourceDecode {} = some src
      ∧ decodeField raw "msg" msgDecode "" = some m
      ∧ ev = { level := lvl, time := t, source := src, message := m,
               data := payloadOf raw } := by
  unfold slogUnmarshal at h
  rcases Option.bind_eq_some.mp h with ⟨raw, hraw, h⟩
  rcases Option.bind_eq_some.mp h with ⟨lvl, hlvl, h⟩
  rcases Option.bind_eq_some.mp h with ⟨t, ht, h⟩
  rcases Option.bind_eq_some.mp h with ⟨src, hsrc, h⟩
  rcases Option.bind_eq_some.mp h with ⟨m, hm, h⟩
  exact ⟨raw, lvl, t, src, m, hraw, hlvl, ht, hsrc, hm, (Option.some.inj h).symm⟩

theorem slogUnmarshal_none_of_failure {j : Json} {raw : List (String × String × Json)}
    (hraw : unmarshalRawMap j = some raw)
    (hfail : decodeField raw "level" levelDecode Level.NONE = none
      ∨ decodeField raw "time" timeDecode 0 = none
      ∨ decodeField raw "source" sourceDecode {} = none
      ∨ decodeField raw "msg" msgDecode "" = none) :
    slogUnmarshal j = none := by
  unfold slogUnmarshal
  rw [hraw]
  rcases hfail with h | h | h | h
  · simp [h]
  · cases hl : decodeField raw "level" levelDecode Level.NONE <;> simp [h]
  · cases hl : decodeField raw "level" levelDecode Level.NONE <;>
      cases ht : decodeField raw "time" timeDecode 0 <;> simp [h]
  · cases hl : decodeField raw "level" levelDecode Level.NONE <;>
      cases ht : decodeField raw "time" timeDecode 0 <;>
      cases hs : decodeField raw "source" sourceDecode {} <;> simp [h]

theorem payloadOf_lookup (raw : List (String × String × Json)) (k : String) :
    (payloadOf raw).lookup k
      = if isReserved k then none
        else (raw.lookup k).map (fun rv => payloadValue rv.1 rv.2) := by
  induction raw with
  | nil => cases h : isReserved k <;> simp [payloadOf, h]
  | cons kv t ih =>
    obtain ⟨a, rv⟩ := kv
    by_cases hres : isReserved a
    · by_cases hka : k = a
      · subst hka
        simp [payloadOf, List.filterMap, hres, List.lookup] at ih ⊢
        simpa [hres] using ih
      · have : (k == a) = false := beq_false_of_ne hka
        simp [payloadOf, List.filterMap, hres, List.lookup, this] at ih ⊢
        exact ih
    · by_cases hka : k = a
      · subst hka
        simp [payloadOf, List.filterMap, hres, List.lookup]
      · have hne : (k == a) = false := beq_false_of_ne hka
        simp [payloadOf, List.filterMap, hres, List.lookup, hne] at ih ⊢
        exact ih

/-!  ### Claim C1. -/

/-- C1 (counterexample): `NewEvent` does not tolerate an absent raw message
text: the Go code dereferences `*cwEvent.Message` unconditionally, so a nil
message pointer crashes construction even though every other field is
present. -/
theorem newEvent_panics_on_nil_message :
    NewEvent { message := none, logStreamName := some "stream", eventId := some "id",
               ingestionTime := some 0, timestamp := some 0 } "group" = none := rfl

/-- C1 (amended): `NewEvent` succeeds whenever the three string-valued fields
(raw message text, stream name, record identifier) are present; the two
millisecond timestamps may be absent and degrade to epoch zero.  An absent
string field, by contrast, is a nil-pointer crash. -/
theorem newEvent_succeeds_when_strings_present (cw : FilteredLogEvent)
    (g msg st id : String) (hm : cw.message = some msg)
    (hs : cw.logStreamName = some st) (hi : cw.eventId = some id) :
    (NewEvent cw g).isSome = true
      ∧ (∀ e, NewEvent cw g = some e →
          (cw.ingestionTime = none → e.ingestTime = timeUnix 0 0)
          ∧ (cw.timestamp = none → e.creationTime = timeUnix 0 0)) := by
  unfold NewEvent
  rw [hm, hs, hi]
  constructor
  · rfl
  · intro e he
    have he' := Option.some.inj he
    constructor
    · intro hni
      rw [← he']
      simp [hni, ParseAWSTimestamp]
    · intro hnt
      rw [← he']
      simp [hnt, ParseAWSTimestamp]

/-- C1 (witness for the amended theorem). -/
theorem newEvent_succeeds_when_strings_present_witness :
    (NewEvent { message := some "hello", logStreamName := some "worker-1",
                eventId := some "id1" } "g").isSome = true := by
  exact (newEvent_succeeds_when_strings_present _ "g" "hello" "worker-1" "id1"
    rfl rfl rfl).1

/-!  ### Claim C2. -/

/-- C2 (counterexample): the input `"null"` is valid JSON and is not a JSON
object, yet parsing does not produce the fallback record: decoding JSON null
into the Go map is a no-op success, so the result has the zero severity and
an empty message instead of severity INFO and message `"null"`. -/
theorem parseSlog_json_null_not_fallback :
    parseJson "null" = some Json.null
      ∧ parseSlog "null" ≠ fallbackSlog "null"
      ∧ (parseSlog "null").level = Level.NONE
      ∧ (parseSlog "null").message = "" :=
  ⟨rfl, by decide, by decide, by decide⟩

/-- C2 (amended): for every input string that is not valid JSON, or is valid
JSON whose top-level value is neither an object nor JSON null, parsing
produces the fallback record: severity INFO, message equal to the input,
empty payload, zero timestamp and no source location.  (JSON null decodes
into the Go map as a no-op, so `"null"` does not take the fallback path.) -/
theorem parseSlog_fallback_of_not_object_or_null (s : String)
    (h : ∀ j, parseJson s = some j → unmarshalRawMap j = none) :
    (parseSlog s).level = Level.INFO ∧ (parseSlog s).message = s
      ∧ (parseSlog s).data = [] ∧ (parseSlog s).time = 0
      ∧ (parseSlog s).source = {} := by
  have hfall : parseSlog s = fallbackSlog s := by
    cases hp : parseJson s with
    | none => exact parseSlog_of_parse_none hp
    | some j =>
      apply parseSlog_of_unmarshal_none hp
      unfold slogUnmarshal
      rw [h j hp]
      rfl
  rw [hfall]
  exact ⟨rfl, rfl, rfl, rfl, rfl⟩

/-- C2 (witness for the amended theorem), at the non-object input `"[17]"`. -/
theorem parseSlog_fallback_of_not_object_or_null_witness :
    (parseSlog "[17]").level = Level.INFO ∧ (parseSlog "[17]").message = "[17]"
      ∧ (parseSlog "[17]").data = [] ∧ (parseSlog "[17]").time = 0
      ∧ (parseSlog "[17]").source = {} := by
  apply parseSlog_fallback_of_not_object_or_null "[17]"
  intro j hj
  rw [show parseJson "[17]" = some (Json.arr [Json.num "17"]) from rfl] at hj
  cases hj
  rfl

/-!  ### Claim C3. -/

/-- C3: for a valid JSON object in which some reserved key (`level`, `time`,
`source` or `msg`) is present but its value fails its sub-decoder, the whole
record degrades to the non-JSON fallback for the same raw text: no reserved
field and no payload field is retained. -/
theorem reserved_field_failure_degrades_whole_record (s : String)
    (kvs : List (String × String × Json)) (r : String) (v : Json)
    (hp : parseJson s = some (Json.obj kvs))
    (hfail : ((toRawMap kvs).lookup "level" = some (r, v) ∧ levelDecode v = none)
      ∨ ((toRawMap kvs).lookup "time" = some (r, v) ∧ timeDecode v = none)
      ∨ ((toRawMap kvs).lookup "source" = some (r, v) ∧ sourceDecode v = none)
      ∨ ((toRawMap kvs).lookup "msg" = some (r, v) ∧ msgDecode v = none)) :
    parseSlog s = fallbackSlog s := by
  apply parseSlog_of_unmarshal_none hp
  apply @slogUnmarshal_none_of_failure (Json.obj kvs) (toRawMap kvs) rfl
  rcases hfail with ⟨h1, h2⟩ | ⟨h1, h2⟩ | ⟨h1, h2⟩ | ⟨h1, h2⟩
  · exact Or.inl (by simp [decodeField, h1, h2])
  · exact Or.inr (Or.inl (by simp [decodeField, h1, h2]))
  · exact Or.inr (Or.inr (Or.inl (by simp [decodeField, h1, h2])))
  · exact Or.inr (Or.inr (Or.inr (by simp [decodeField, h1, h2])))

/-- C3 (witness): a record whose `time` value is the number `5` (not a JSON
string) degrades whole to the fallback. -/
theorem reserved_field_failure_degrades_whole_record_witness :
    parseSlog "\x7b\"time\":5\x7d" = fallbackSlog "\x7b\"time\":5\x7d" :=
  reserved_field_failure_degrades_whole_record _ [("time", "5", Json.num "5")]
    "5" (Json.num "5") rfl (Or.inr (Or.inl ⟨rfl, rfl⟩))

/-!  ### Claim C4. -/

/-- C4 (counterexample): extraction is not best-effort per field across the
reserved keys: in `\x7b"time":true,"msg":"hello"\x7d` the malformed `time`
value prevents extraction of the well-formed `msg` — the whole record
degrades and the message is the raw text, not `"hello"`. -/
theorem malformed_time_blocks_msg_extraction :
    (parseSlog "\x7b\"time\":true,\"msg\":\"hello\"\x7d").message
        = "\x7b\"time\":true,\"msg\":\"hello\"\x7d"
      ∧ (parseSlog "\x7b\"time\":true,\"msg\":\"hello\"\x7d").message ≠ "hello"
      ∧ (parseSlog "\x7b\"time\":true,\"msg\":\"hello\"\x7d").data = [] := by
  decide

/-- C4 (amended): field extraction is best-effort only for the non-reserved
payload fields: whenever every present reserved key decodes, the record
parses successfully and every non-reserved field survives in the payload,
whatever its value; a malformed reserved value (`level`, `time`, `source`
or `msg`) instead degrades the entire record to the fallback. -/
theorem payload_fields_best_effort (s : String) (kvs : List (String × String × Json))
    (hp : parseJson s = some (Json.obj kvs))
    (hl : (decodeField (toRawMap kvs) "level" levelDecode Level.NONE).isSome = true)
    (ht : (decodeField (toRawMap kvs) "time" timeDecode 0).isSome = true)
    (hsrc : (decodeField (toRawMap kvs) "source" sourceDecode {}).isSome = true)
    (hm : (decodeField (toRawMap kvs) "msg" msgDecode "").isSome = true) :
    (slogUnmarshal (Json.obj kvs)).isSome = true
      ∧ ∀ k, isReserved k = false → ((toRawMap kvs).lookup k).isSome = true →
          ((parseSlog s).data.lookup k).isSome = true := by
  obtain ⟨lvl, hl'⟩ := Option.isSome_iff_exists.mp hl
  obtain ⟨t, ht'⟩ := Option.isSome_iff_exists.mp ht
  obtain ⟨src, hsrc'⟩ := Option.isSome_iff_exists.mp hsrc
  obtain ⟨m, hm'⟩ := Option.isSome_iff_exists.mp hm
  have hun : slogUnmarshal (Json.obj kvs)
      = some { level := lvl, time := t, source := src, message := m,
               data := payloadOf (toRawMap kvs) } := by
    unfold slogUnmarshal
    simp only [show unmarshalRawMap (Json.obj kvs) = some (toRawMap kvs) from rfl,
      Option.some_bind, hl', ht', hsrc', hm']
  constructor
  · rw [hun]; rfl
  · intro k hk hsome
    rw [parseSlog_of_unmarshal_some hp hun]
    show ((payloadOf (toRawMap kvs)).lookup k).isSome = true
    rw [payloadOf_lookup]
    simp [hk, hsome]

/-- C4 (witness for the amended theorem): a payload value that is neither a
string nor a number (`[null]`) still survives while `msg` is extracted. -/
theorem payload_fields_best_effort_witness :
    ((parseSlog "\x7b\"a\":[null],\"msg\":\"m\"\x7d").data.lookup "a").isSome = true := by
  exact (payload_fields_best_effort "\x7b\"a\":[null],\"msg\":\"m\"\x7d"
    [("a", "[null]", Json.arr [Json.null]), ("msg", "\"m\"", Json.str "m")]
    rfl rfl rfl rfl rfl).2 "a" rfl rfl

/-!  ### Claim C5. -/

/-- C5: a valid structured JSON object with `level="ERROR"`, a well-formed
timestamp `time=T`, `msg=m` and the extra numeric field `count: 3` parses to
a record with severity ERROR, timestamp `T`, message `m`, and payload
mapping `"count"` to the string `"3"`. -/
theorem structured_record_extracts_fields (v : Json) (T : GoTime)
    (m s lr tr mr : String)
    (hp : parseJson s = some (Json.obj [("level", lr, Json.str "ERROR"),
      ("time", tr, v), ("msg", mr, Json.str m), ("count", "3", Json.num "3")]))
    (ht : timeDecode v = some T) :
    (parseSlog s).level = Level.ERROR ∧ (parseSlog s).time = T
      ∧ (parseSlog s).message = m
      ∧ (parseSlog s).data.lookup "count" = some "3" := by
  have hun : slogUnmarshal (Json.obj [("level", lr, Json.str "ERROR"),
      ("time", tr, v), ("msg", mr, Json.str m), ("count", "3", Json.num "3")])
      = some { level := Level.ERROR, time := T, source := {}, message := m,
               data := [("count", "3")] } := by
    unfold slogUnmarshal
    rw [show unmarshalRawMap (Json.obj [("level", lr, Json.str "ERROR"),
      ("time", tr, v), ("msg", mr, Json.str m), ("count", "3", Json.num "3")])
        = some [("level", lr, Json.str "ERROR"), ("time", tr, v),
                ("msg", mr, Json.str m), ("count", "3", Json.num "3")] from rfl]
    rw [Option.some_bind]
    rw [show decodeField [("level", lr, Json.str "ERROR"), ("time", tr, v),
      ("msg", mr, Json.str m), ("count", "3", Json.num "3")] "level" levelDecode
        Level.NONE = some Level.ERROR from rfl]
    rw [Option.some_bind]
    rw [show decodeField [("level", lr, Json.str "ERROR"), ("time", tr, v),
      ("msg", mr, Json.str m), ("count", "3", Json.num "3")] "time" timeDecode 0
        = timeDecode v from rfl]
    rw [ht, Option.some_bind]
    rfl
  rw [parseSlog_of_unmarshal_some hp hun]
  exact ⟨rfl, rfl, rfl, rfl⟩

/-- C5 (witness): the concrete record with `time = 2023-11-14T22:13:20Z`
(Unix epoch second 1700000000). -/
theorem structured_record_extracts_fields_witness :
    (parseSlog "\x7b\"level\":\"ERROR\",\"time\":\"2023-11-14T22:13:20Z\",\"msg\":\"m\",\"count\":3\x7d").level = Level.ERROR
      ∧ (parseSlog "\x7b\"level\":\"ERROR\",\"time\":\"2023-11-14T22:13:20Z\",\"msg\":\"m\",\"count\":3\x7d").time = timeUnix 1700000000 0
      ∧ (parseSlog "\x7b\"level\":\"ERROR\",\"time\":\"2023-11-14T22:13:20Z\",\"msg\":\"m\",\"count\":3\x7d").message = "m"
      ∧ (parseSlog "\x7b\"level\":\"ERROR\",\"time\":\"2023-11-14T22:13:20Z\",\"msg\":\"m\",\"count\":3\x7d").data.lookup "count" = some "3" :=
  structured_record_extracts_fields (Json.str "2023-11-14T22:13:20Z")
    (timeUnix 1700000000 0) "m" _ "\"ERROR\"" "\"2023-11-14T22:13:20Z\"" "\"m\""
    rfl (by decide)

/-!  ### Claim C6. -/

/-- C6 (counterexample): a non-reserved field whose value is JSON null is
stored as the empty string (decoding null into a Go string is a no-op), not
as its raw text `"null"`, although null is neither a JSON string nor a JSON
number. -/
theorem null_payload_value_stored_empty :
    (parseSlog "\x7b\"k\":null\x7d").data.lookup "k" = some ""
      ∧ (parseSlog "\x7b\"k\":null\x7d").data.lookup "k" ≠ some "null" := by
  decide

/-- C6 (amended): for an input parsing as a JSON object whose reserved keys
all decode, the payload holds exactly the non-reserved keys — never `level`,
`time`, `source` or `msg` — and each value is stored as its decoded string if
the raw value is a JSON string, the empty string if it is JSON null (null
decodes into a Go string as a no-op), its literal text if it is a JSON
number, and its raw JSON text verbatim otherwise. -/
theorem payload_exactly_non_reserved_keys (s : String)
    (kvs : List (String × String × Json)) (ev : SlogEvent)
    (_hp : parseJson s = some (Json.obj kvs))
    (hu : slogUnmarshal (Json.obj kvs) = some ev) :
    (∀ k, (ev.data.lookup k).isSome = true
        ↔ (isReserved k = false ∧ ((toRawMap kvs).lookup k).isSome = true))
      ∧ (∀ k rawv v, isReserved k = false → (toRawMap kvs).lookup k = some (rawv, v) →
          ev.data.lookup k = some (match v with
            | Json.str w => w
            | Json.null => ""
            | Json.num lit => lit
            | _ => rawv)) := by
  obtain ⟨raw, lvl, t, src, m, hraw, -, -, -, -, hev⟩ := slogUnmarshal_some_elim hu
  have hraw' : raw = toRawMap kvs := by
    rw [show unmarshalRawMap (Json.obj kvs) = some (toRawMap kvs) from rfl] at hraw
    exact (Option.some.inj hraw).symm
  subst hraw'
  have hdata : ev.data = payloadOf (toRawMap kvs) := by rw [hev]
  constructor
  · intro k
    rw [hdata, payloadOf_lookup]
    cases hres : isReserved k <;> simp [hres]
  · intro k rawv v hres hlook
    rw [hdata, payloadOf_lookup]
    simp only [hres, Bool.false_eq_true, if_false, hlook, Option.map_some]
    cases v <;> rfl

/-- C6 (witness for the amended theorem): a structured value `[1, true]`
survives as its raw text verbatim, interior whitespace included, and the
reserved key `msg` is absent from the payload. -/
theorem payload_exactly_non_reserved_keys_witness :
    (parseSlog "\x7b\"a\":\"x\",\"b\":3,\"c\":[1, true],\"msg\":\"m\"\x7d").data.lookup "c" = some "[1, true]"
      ∧ ((parseSlog "\x7b\"a\":\"x\",\"b\":3,\"c\":[1, true],\"msg\":\"m\"\x7d").data.lookup "msg").isSome = false := by
  have h := payload_exactly_non_reserved_keys
    "\x7b\"a\":\"x\",\"b\":3,\"c\":[1, true],\"msg\":\"m\"\x7d"
    [("a", "\"x\"", Json.str "x"), ("b", "3", Json.num "3"),
     ("c", "[1, true]", Json.arr [Json.num "1", Json.bool true]),
     ("msg", "\"m\"", Json.str "m")]
    { level := Level.NONE, time := 0, source := {}, message := "m",
      data := [("a", "x"), ("b", "3"), ("c", "[1, true]")] } rfl rfl
  have hs : parseSlog "\x7b\"a\":\"x\",\"b\":3,\"c\":[1, true],\"msg\":\"m\"\x7d"
      = { level := Level.NONE, time := 0, source := {}, message := "m",
          data := [("a", "x"), ("b", "3"), ("c", "[1, true]")] } :=
    parseSlog_of_unmarshal_some rfl rfl
  rw [hs]
  constructor
  · exact h.2 "c" "[1, true]" (Json.arr [Json.num "1", Json.bool true]) rfl rfl
  · cases hb : (List.lookup "msg" [("a", "x"), ("b", "3"), ("c", "[1, true]")]).isSome
    · rfl
    · exact absurd ((h.1 "msg").mp hb).1 (by decide)

/-!  ### Claim C7. -/

/-- C7: when the parsed message carries a zero timestamp, the constructed
Event's effective timestamp is the retrieval system's creation timestamp
converted from epoch milliseconds (seconds = ms tdiv 1000, nanoseconds =
(ms tmod 1000)·10⁶; nil maps to epoch zero), and `creationTime` is populated
with that identical value. -/
theorem zero_time_replaced_by_creation_time (cw : FilteredLogEvent)
    (g msg : String) (e : Event) (hm : cw.message = some msg)
    (hz : timeIsZero (parseSlog msg).time = true)
    (hne : NewEvent cw g = some e) :
    e.slog.time = ParseAWSTimestamp cw.timestamp
      ∧ e.creationTime = ParseAWSTimestamp cw.timestamp
      ∧ e.slog.time = e.creationTime
      ∧ (∀ ms, cw.timestamp = some ms →
          ParseAWSTimestamp cw.timestamp
            = timeUnix (ms.tdiv 1000) (ms.tmod 1000 * 1000000))
      ∧ (cw.timestamp = none → ParseAWSTimestamp cw.timestamp = timeUnix 0 0) := by
  cases hs : cw.logStreamName with
  | none =>
    unfold NewEvent at hne
    rw [hm, hs] at hne
    exact absurd hne (by simp)
  | some st =>
    cases hi : cw.eventId with
    | none =>
      unfold NewEvent at hne
      rw [hm, hs, hi] at hne
      exact absurd hne (by simp)
    | some id =>
      have key : NewEvent cw g
          = some { slog := { parseSlog msg with time := ParseAWSTimestamp cw.timestamp },
                   stream := st, group := g, id := id,
                   ingestTime := ParseAWSTimestamp cw.ingestionTime,
                   creationTime := ParseAWSTimestamp cw.timestamp } := by
        unfold NewEvent
        rw [hm, hs, hi]
        simp [hz]
      rw [key] at hne
      have he := Option.some.inj hne
      subst he
      refine ⟨rfl, rfl, rfl, ?_, ?_⟩
      · intro ms hms
        rw [hms]
        rfl
      · intro h0
        rw [h0]
        rfl

/-- C7 (witness): the spec's example, `creation = 1700000000000` ms and a
plain-text message with no embedded time. -/
theorem zero_time_replaced_by_creation_time_witness :
    (NewEvent { message := some "hello", logStreamName := some "s",
                eventId := some "i", ingestionTime := none,
                timestamp := some 1700000000000 } "g").map
        (fun e => e.slog.time) = some (timeUnix 1700000000 0)
      ∧ (NewEvent { message := some "hello", logStreamName := some "s",
                    eventId := some "i", ingestionTime := none,
                    timestamp := some 1700000000000 } "g").map
        Event.creationTime = some (timeUnix 1700000000 0) := by
  have hne : NewEvent { message := some "hello", logStreamName := some "s",
                        eventId := some "i", ingestionTime := none,
                        timestamp := some 1700000000000 } "g"
      = some { slog := { level := Level.INFO, time := timeUnix 1700000000 0,
                         source := {}, message := "hello", data := [] },
               stream := "s", group := "g", id := "i",
               ingestTime := timeUnix 0 0,
               creationTime := timeUnix 1700000000 0 } := by decide
  have h := zero_time_replaced_by_creation_time _ "g" "hello" _ rfl (by decide) hne
  rw [hne]
  have hconv : ParseAWSTimestamp (some 1700000000000) = timeUnix 1700000000 0 := by decide
  exact ⟨congrArg some (h.1.trans hconv), congrArg some (h.2.1.trans hconv)⟩

/-!  ### Claim C8. -/

/-- C8 (counterexample): a valid structured record with no `level` key does
not default to INFO: the field keeps the zero severity NONE of the external
severity type. -/
theorem absent_level_not_info :
    (parseSlog "\x7b\x7d").level = Level.NONE
      ∧ (parseSlog "\x7b\x7d").level ≠ Level.INFO := by decide

/-- C8 (amended): the severity is INFO whenever the record takes the
whole-message fallback path — the input is not a structured JSON record, or
some reserved field (in particular an unparseable `level` value) fails to
decode; but a structured record that simply lacks the `level` key keeps the
zero severity NONE, not INFO. -/
theorem level_defaults (s : String) :
    ((∀ j, parseJson s = some j → slogUnmarshal j = none) →
        (parseSlog s).level = Level.INFO)
      ∧ (∀ kvs, parseJson s = some (Json.obj kvs) →
          (toRawMap kvs).lookup "level" = none →
          (slogUnmarshal (Json.obj kvs)).isSome = true →
          (parseSlog s).level = Level.NONE) := by
  constructor
  · intro h
    have hfall : parseSlog s = fallbackSlog s := by
      cases hp : parseJson s with
      | none => exact parseSlog_of_parse_none hp
      | some j => exact parseSlog_of_unmarshal_none hp (h j hp)
    rw [hfall]
    rfl
  · intro kvs hp hnolevel hsome
    obtain ⟨ev, hev⟩ := Option.isSome_iff_exists.mp hsome
    rw [parseSlog_of_unmarshal_some hp hev]
    obtain ⟨raw, lvl, t, src, m, hraw, hlvl, -, -, -, hev'⟩ := slogUnmarshal_some_elim hev
    have hraw' : raw = toRawMap kvs := by
      rw [show unmarshalRawMap (Json.obj kvs) = some (toRawMap kvs) from rfl] at hraw
      exact (Option.some.inj hraw).symm
    subst hraw'
    unfold decodeField at hlvl
    rw [hnolevel] at hlvl
    rw [hev']
    exact (Option.some.inj hlvl).symm

/-- C8 (witness for the amended theorem): an undecodable `level` value (the
number `5`) falls back to INFO; an absent `level` key yields NONE. -/
theorem level_defaults_witness :
    (parseSlog "\x7b\"level\":5\x7d").level = Level.INFO
      ∧ (parseSlog "\x7b\x7d").level = Level.NONE := by
  constructor
  · apply (level_defaults _).1
    intro j hj
    rw [show parseJson "\x7b\"level\":5\x7d"
        = some (Json.obj [("level", "5", Json.num "5")]) from rfl] at hj
    cases hj
    rfl
  · exact (level_defaults "\x7b\x7d").2 [] rfl rfl rfl

/-!  ### Claim C9. -/

/-- C9 (counterexample): the pattern the code matches is alphanumeric, not
hexadecimal: the all-`z` stream is shortened to its first segment although
it does not match the hexadecimal 8-4-4-4-12 pattern. -/
theorem taskShort_shortens_non_hex_alnum :
    Event.TaskShort (mkEvent "zzzzzzzz-zzzz-zzzz-zzzz-zzzzzzzzzzzz" "g" "i" 0) = "zzzzzzzz"
      ∧ specHexUUIDPattern "zzzzzzzz-zzzz-zzzz-zzzz-zzzzzzzzzzzz" = false
      ∧ "zzzzzzzz" ≠ "zzzzzzzz-zzzz-zzzz-zzzz-zzzzzzzzzzzz" := by decide

/-- C9 (amended): the short-stream view returns the first hyphen-delimited
segment exactly when the stream matches the alphanumeric (not only
hexadecimal) 8-4-4-4-12 pattern `TaskUUIDPattern`, and returns the stream
unchanged otherwise; `"12345678-aaaa-bbbb-cccc-123456789012"` shortens to
`"12345678"` and `"worker-1"` is returned unchanged. -/
theorem taskShort_spec (e : Event) :
    (taskUUIDMatch e.stream = true →
        e.TaskShort = String.mk ((splitOnDash e.stream.toList).headD []))
      ∧ (taskUUIDMatch e.stream = false → e.TaskShort = e.stream)
      ∧ Event.TaskShort (mkEvent "12345678-aaaa-bbbb-cccc-123456789012" "" "" 0) = "12345678"
      ∧ Event.TaskShort (mkEvent "worker-1" "" "" 0) = "worker-1" := by
  refine ⟨?_, ?_, by decide, by decide⟩
  · intro h
    simp [Event.TaskShort, h]
  · intro h
    simp [Event.TaskShort, h]

/-- C9 (witness for the amended theorem). -/
theorem taskShort_spec_witness :
    Event.TaskShort (mkEvent "abcd1234-0000-1111-2222-333344445555" "g" "i" 0) = "abcd1234"
      ∧ Event.TaskShort (mkEvent "plain" "g" "i" 0) = "plain" := by
  constructor
  · exact ((taskShort_spec _).1 (by decide)).trans (by decide)
  · exact (taskShort_spec _).2.1 (by decide)

/-!  ### Claim C10. -/

/-- The sorting relation induced by the `ByCreationTime` comparator. -/
def eventLE (a b : Event) : Prop := byCreationTimeLE a b = true

instance : DecidableRel eventLE := fun a b => by unfold eventLE; infer_instance

/-- C10: the comparator is strict comparison of creation times; the induced
relation is a total preorder; a stable sort by it puts any collection in
nondecreasing creation-time order — creation times [5, 1, 3] sort to
[1, 3, 5] — and leaves ties in input order. -/
theorem byCreationTime_order :
    (∀ a b : Event, byCreationTimeLess a b = true ↔ a.creationTime < b.creationTime)
      ∧ (∀ a b : Event, eventLE a b ∨ eventLE b a)
      ∧ (∀ a b c : Event, eventLE a b → eventLE b c → eventLE a c)
      ∧ (∀ l : List Event, (List.insertionSort eventLE l).Sorted eventLE
            ∧ (List.insertionSort eventLE l).Perm l)
      ∧ List.insertionSort eventLE
          [mkEvent "a" "g" "5" 5, mkEvent "a" "g" "1" 1, mkEvent "a" "g" "3" 3]
        = [mkEvent "a" "g" "1" 1, mkEvent "a" "g" "3" 3, mkEvent "a" "g" "5" 5]
      ∧ List.insertionSort eventLE
          [mkEvent "a" "g" "x" 7, mkEvent "a" "g" "y" 7]
        = [mkEvent "a" "g" "x" 7, mkEvent "a" "g" "y" 7] := by
  have hless : ∀ a b : Event, byCreationTimeLess a b = true ↔ a.creationTime < b.creationTime := by
    intro a b
    unfold byCreationTimeLess timeBefore
    exact decide_eq_true_iff
  have hle : ∀ a b : Event, eventLE a b ↔ a.creationTime ≤ b.creationTime := by
    intro a b
    unfold eventLE byCreationTimeLE byCreationTimeLess timeBefore
    simp [not_lt]
  have htotal : ∀ a b : Event, eventLE a b ∨ eventLE b a := by
    intro a b
    rcases le_total a.creationTime b.creationTime with h | h
    · exact Or.inl ((hle a b).mpr h)
    · exact Or.inr ((hle b a).mpr h)
  have htrans : ∀ a b c : Event, eventLE a b → eventLE b c → eventLE a c := by
    intro a b c h1 h2
    exact (hle a c).mpr (le_trans ((hle a b).mp h1) ((hle b c).mp h2))
  refine ⟨hless, htotal, htrans, ?_, by decide, by decide⟩
  intro l
  haveI : IsTotal Event eventLE := ⟨htotal⟩
  haveI : IsTrans Event eventLE := ⟨fun a b c => htrans a b c⟩
  exact ⟨List.sorted_insertionSort eventLE l, List.perm_insertionSort eventLE l⟩

/-- C10 (witness): transitivity applied at concrete events. -/
theorem byCreationTime_order_witness :
    eventLE (mkEvent "a" "g" "1" 1) (mkEvent "a" "g" "5" 5) :=
  byCreationTime_order.2.2.1 (mkEvent "a" "g" "1" 1) (mkEvent "a" "g" "3" 3)
    (mkEvent "a" "g" "5" 5) (by decide) (by decide)

end CwLogs
